import Mathlib

/-!
Verification of the client-side result cache and search coordinator of
`src/ultrafast.js` (Abinweb/ultra-fast-result).

The JavaScript is shallowly embedded:
* a JS `Map` is an insertion-ordered association list (`JsMap`);
* timestamps (`Date.now()`) are natural numbers passed explicitly;
* `fetch` outcomes and JSON bodies are explicit data fed to the functions
  that consume them, so the asynchronous pipeline becomes a pure function of
  the settled outcomes of its sub-requests.
-/

namespace UltraFast

/-! ### JS `Map` model

A JS `Map` keeps its entries in key-insertion order: `set` on a fresh key
appends, `set` on a present key replaces the value in place, `delete`
removes the unique entry of a key, `keys().next().value` is the key of the
first (oldest-inserted) entry. -/

/-- Insertion-ordered association list modelling a JS `Map` with string keys. -/
abbrev JsMap (β : Type) := List (String × β)

/-- JS `map.get(k)`. -/
def mapGet {β : Type} (m : JsMap β) (k : String) : Option β :=
  (m.find? (fun p => p.1 == k)).map Prod.snd

/-- JS `map.has(k)` (key occurs in the map). -/
def mapHasKey {β : Type} (m : JsMap β) (k : String) : Bool :=
  m.any (fun p => p.1 == k)

/-- JS `map.set(k, v)`: replace in place when the key is present, else append. -/
def mapSet {β : Type} (m : JsMap β) (k : String) (v : β) : JsMap β :=
  if mapHasKey m k then m.map (fun p => if p.1 == k then (k, v) else p)
  else m ++ [(k, v)]

/-- JS `map.delete(k)`: remove the (first, in a JS `Map` unique) entry of `k`. -/
def mapDelete {β : Type} (m : JsMap β) (k : String) : JsMap β :=
  m.eraseP (fun p => p.1 == k)

/-- JS `map.keys().next().value`: the oldest-inserted key, if any. -/
def mapFirstKey {β : Type} (m : JsMap β) : Option String :=
  m.head?.map Prod.fst

/-- JS `map.size`. -/
def mapSize {β : Type} (m : JsMap β) : Nat := m.length

/-! ### The result cache (`searchCache`, `getCachedResults`, `setCachedResults`) -/

/-- The constant `CACHE_DURATION = 15 * 60 * 1000` (15 minutes in milliseconds). -/
def CACHE_DURATION : Nat := 15 * 60 * 1000

/-- The constant `MAX_CACHE_SIZE = 200`. -/
def MAX_CACHE_SIZE : Nat := 200

/-- A cache entry `{ results, timestamp }` as stored by `setCachedResults`. -/
structure CacheEntry (α : Type) where
  results : List α
  timestamp : Nat
deriving DecidableEq

/-- The `searchCache` map, polymorphic in the stored item type. -/
abbrev SearchCache (α : Type) := JsMap (CacheEntry α)

/-- JS `String.prototype.toLowerCase` (modelled on the ASCII range via
`Char.toLower`, which is all the repository needs). -/
def toLowerCase (s : String) : String := ⟨s.data.map Char.toLower⟩

/-- The cache key `` `${query.toLowerCase()}_${selectedOption}` `` used by both
`getCachedResults` and `setCachedResults`. -/
def cacheKey (query selectedOption : String) : String :=
  toLowerCase query ++ "_" ++ selectedOption

/-- Lookup `getCachedResults(query, selectedOption)` at time `now`: the stored results
when a cached entry exists and `now - cached.timestamp < CACHE_DURATION`,
otherwise `null` (here `none`). It reads but never writes the cache. -/
def getCachedResults {α : Type} (cache : SearchCache α)
    (query selectedOption : String) (now : Nat) : Option (List α) :=
  match mapGet cache (cacheKey query selectedOption) with
  | some cached => if now - cached.timestamp < CACHE_DURATION then some cached.results else none
  | none => none

/-- Store `setCachedResults(query, selectedOption, results)` at time `now`:
when `searchCache.size >= MAX_CACHE_SIZE`, first delete the first key of the
map (`searchCache.keys().next().value`), then `set` the derived key to
`{ results, timestamp: now }`. -/
def setCachedResults {α : Type} (cache : SearchCache α)
    (query selectedOption : String) (results : List α) (now : Nat) : SearchCache α :=
  let key := cacheKey query selectedOption
  let cache1 :=
    if MAX_CACHE_SIZE ≤ mapSize cache then
      match mapFirstKey cache with
      | some firstKey => mapDelete cache firstKey
      | none => cache
    else cache
  mapSet cache1 key ⟨results, now⟩

/-! ### Fetch layer (`optimizedFetch`) and its option plumbing

`optimizedFetch(url, options, retries = 1)` creates a fresh `AbortController`
for its 10 s timeout and calls
`fetch(url, { ...options, signal: controller.signal, keepalive: true,
headers: { ...options.headers, Connection: keep-alive } })`.
On a rejection it retries after 300 ms while `retries > 0` and the error name
is not `AbortError`; otherwise it rethrows.  A response — `ok` or not — is
returned as-is.  Abort controllers are identified by numbers; a signal is the
identifier of its controller. -/

/-- The second argument of `fetch` as far as the repository uses it. -/
structure FetchOptions where
  headers : List (String × String) := []
  signal : Option Nat := none
  keepalive : Bool := false
deriving DecidableEq

/-- The init object `optimizedFetch` actually passes to `fetch`:
`{ ...options, signal: controller.signal, keepalive: true, headers: {...} }`,
where `controller` is the per-call 10 s timeout controller.  The `signal`
field written after the spread replaces any signal the caller supplied. -/
def optimizedFetchInit (options : FetchOptions) (timeoutControllerSignal : Nat) : FetchOptions :=
  { options with
    signal := some timeoutControllerSignal
    keepalive := true
    headers := options.headers ++ [("Connection", "keep-alive")] }

/-- The options `executeParallelSearches` passes to `optimizedFetch` for each
sub-request: the auth header plus the shared search controller signal. -/
def searchSubRequestOptions (token : String) (currentControllerSignal : Nat) : FetchOptions :=
  { headers := [("Authorization", "Bearer " ++ token)]
    signal := some currentControllerSignal }

/-- Whether a fetch whose init carries `sig` is cancelled when the controllers
in `abortedControllers` have been aborted (runtime `AbortController` model). -/
def signalAborted (abortedControllers : List Nat) (sig : Option Nat) : Bool :=
  match sig with
  | some c => abortedControllers.contains c
  | none => false

/-- The body a response parses to: a JSON object whose `results` field may be
absent (`data.results || []` then yields `[]`), or a parse failure
(`response.json()` throws). -/
inductive JsonBody (α : Type) where
  | fields (results : Option (List α))
  | throws
deriving DecidableEq

/-- A settled `fetch` response: HTTP status flag, `statusText`, body. -/
structure Response (α : Type) where
  ok : Bool
  statusText : String := ""
  json : JsonBody α
deriving DecidableEq

/-- The outcome of one wire-level fetch attempt: the promise resolves with a
response (any status), or rejects with an error of the given `name`
(`AbortError` for the 10 s timeout abort, e.g. `TypeError` for a network
failure). -/
inductive AttemptResult (α : Type) where
  | resolves (response : Response α)
  | rejects (errName : String)
deriving DecidableEq

/-- The fetch wrapper `optimizedFetch` as a function of the stream of wire-level attempt
outcomes: `attempt n` is what the `n`-th fetch attempt does.  Returns the
settled promise (`Except` = rejection) together with the index after the last
attempt made, i.e. the number of attempts when started at `0`.  The source
retries (after a 300 ms backoff, elided here) while `retries > 0` and the
rejection is not named `AbortError`. -/
def optimizedFetch {α : Type} (attempt : Nat → AttemptResult α) :
    Nat → Nat → Except String (Response α) × Nat
  | i, retries =>
    match attempt i with
    | .resolves r => (.ok r, i + 1)
    | .rejects errName =>
      match retries with
      | retries' + 1 =>
        if errName ≠ "AbortError" then optimizedFetch attempt (i + 1) retries'
        else (.error errName, i + 1)
      | 0 => (.error errName, i + 1)

/-! ### Parallel search execution (`executeParallelSearches`) -/

/-- A merged result item `{ ...item, _type: type }`. -/
structure TaggedItem (α : Type) where
  item : α
  _type : String
deriving DecidableEq

/-- The value produced for one sub-request inside `Promise.allSettled`:
`{ type, data, success }` plus an optional error string.  The mapper catches
every exception, so every element of the settled array is fulfilled with one
of these. -/
structure SubSettled (α : Type) where
  type : String
  data : List α
  success : Bool
  error : Option String := none
deriving DecidableEq

/-- The `async ({ type, promise }) => { try { ... } catch { ... } }` mapper of
`executeParallelSearches`: an `ok` response contributes
`data.results || []` with `success: true`; a non-2xx response, a body that
fails to parse, or a rejected promise contributes `[]` with
`success: false`. -/
def handleSubRequest {α : Type} (type : String) (settled : Except String (Response α)) :
    SubSettled α :=
  match settled with
  | .error errMsg => ⟨ type, [], false, some errMsg⟩
  | .ok response =>
    if response.ok then
      match response.json with
      | .fields results => ⟨ type, results.getD [], true, none⟩
      | .throws => ⟨ type, [], false, some "Unexpected token in JSON"⟩
    else ⟨ type, [], false, some response.statusText⟩

/-- The coordinator `executeParallelSearches(query, selectedOption, ...)` as a function of the
settled outcomes of its two possible sub-requests.  It pushes a `page`
sub-request when `selectedOption` is `Pages` or `Both` and a `cms`
sub-request when it is `Collection` or `Both` (in that order), waits for all
of them to settle (`Promise.allSettled`), and concatenates, in declaration
order, the `data` of each successful one tagged with `_type`.  URL and query
parameters do not affect the merge and are elided. -/
def executeParallelSearches {α : Type} (selectedOption : String)
    (pageSettled cmsSettled : Except String (Response α)) : List (TaggedItem α) :=
  let searchPromises : List (String × Except String (Response α)) :=
    (if selectedOption = "Pages" ∨ selectedOption = "Both"
      then [("page", pageSettled)] else [])
    ++ (if selectedOption = "Collection" ∨ selectedOption = "Both"
      then [("cms", cmsSettled)] else [])
  let results := searchPromises.map fun tp => handleSubRequest tp.1 tp.2
  results.foldl
    (fun allResults r =>
      if r.success then allResults ++ r.data.map (fun item => ⟨item, r.type⟩)
      else allResults)
    []

/-- A failed sub-request in the error taxonomy of the spec: the promise
rejected (network failure, exhausted retries, abort), or the response was
non-2xx, or its body failed to parse. -/
def failedSettled {α : Type} (settled : Except String (Response α)) : Prop :=
  match settled with
  | .error _ => True
  | .ok response => response.ok = false ∨ response.json = .throws

/-! ### The two call sites that write the cache -/

/-- What `performSearchFast` leaves on the screen. -/
inductive SearchRender (α : Type) where
  | noResults
  | rendered (results : List (TaggedItem α))
deriving DecidableEq

/-- The cache-relevant core of `performSearchFast` (after query extraction):
on a cache hit render the cached list (a hit with `length === 0` renders the
no-results message); on a miss run `executeParallelSearches`; when the merged
list is empty render the no-results message and return **without storing**;
otherwise store via `setCachedResults` and render.  Returns the cache after
the call and the rendering. -/
def performSearchFast {α : Type} (cache : SearchCache (TaggedItem α))
    (query selectedOption : String)
    (pageSettled cmsSettled : Except String (Response α)) (now : Nat) :
    SearchCache (TaggedItem α) × SearchRender α :=
  match getCachedResults cache query selectedOption now with
  | some cachedResults =>
    if cachedResults.length = 0 then (cache, .noResults)
    else (cache, .rendered cachedResults)
  | none =>
    let allResults := executeParallelSearches selectedOption pageSettled cmsSettled
    if allResults.length = 0 then (cache, .noResults)
    else (setCachedResults cache query selectedOption allResults now, .rendered allResults)

/-- The cache-relevant core of `preloadSearchData`: run
`executeParallelSearches` and store the merged list unconditionally. -/
def preloadSearchData {α : Type} (cache : SearchCache (TaggedItem α))
    (query selectedOption : String)
    (pageSettled cmsSettled : Except String (Response α)) (now : Nat) :
    SearchCache (TaggedItem α) :=
  let allResults := executeParallelSearches selectedOption pageSettled cmsSettled
  setCachedResults cache query selectedOption allResults now

/-! ### Lemmas about the `JsMap` operations -/

theorem find?_cons_pos {γ : Type} {f : γ → Bool} {a : γ} (l : List γ)
    (h : f a = true) : (a :: l).find? f = some a := by
  simp [List.find?_cons, h]

theorem find?_cons_neg {γ : Type} {f : γ → Bool} {a : γ} (l : List γ)
    (h : f a = false) : (a :: l).find? f = l.find? f := by
  simp [List.find?_cons, h]

theorem eraseP_cons_pos {γ : Type} {f : γ → Bool} {a : γ} (l : List γ)
    (h : f a = true) : (a :: l).eraseP f = l := by
  simp [List.eraseP_cons, h]

theorem eraseP_cons_neg {γ : Type} {f : γ → Bool} {a : γ} (l : List γ)
    (h : f a = false) : (a :: l).eraseP f = a :: l.eraseP f := by
  simp [List.eraseP_cons, h]

theorem find?_replace {β : Type} (m : JsMap β) (k : String) (v : β) :
    (m.map (fun p => if p.1 == k then (k, v) else p)).find? (fun p => p.1 == k)
      = if mapHasKey m k then some (k, v) else none := by
  induction m with
  | nil => simp [mapHasKey]
  | cons p m ih =>
    simp only [List.map_cons]
    by_cases hp : p.1 = k
    · have h1 : ((if p.1 == k then (k, v) else p) : String × β) = (k, v) := by simp [hp]
      rw [h1, find?_cons_pos _ (by simp)]
      have h2 : mapHasKey (p :: m) k = true := by simp [mapHasKey, hp]
      rw [if_pos h2]
    · have h1 : ((if p.1 == k then (k, v) else p) : String × β) = p := by simp [hp]
      rw [h1, find?_cons_neg _ (by simp [hp]), ih]
      have h2 : mapHasKey (p :: m) k = mapHasKey m k := by simp [mapHasKey, hp]
      rw [h2]

theorem find?_replace_ne {β : Type} (m : JsMap β) (k k' : String) (v : β)
    (h : k' ≠ k) :
    (m.map (fun p => if p.1 == k then (k, v) else p)).find? (fun p => p.1 == k')
      = m.find? (fun p => p.1 == k') := by
  induction m with
  | nil => rfl
  | cons p m ih =>
    simp only [List.map_cons]
    by_cases hp : p.1 = k
    · have h1 : ((if p.1 == k then (k, v) else p) : String × β) = (k, v) := by simp [hp]
      rw [h1, find?_cons_neg _ (by simp [Ne.symm h]), find?_cons_neg _ (by simp [hp, Ne.symm h]), ih]
    · have h1 : ((if p.1 == k then (k, v) else p) : String × β) = p := by simp [hp]
      rw [h1]
      by_cases hp' : p.1 = k'
      · rw [find?_cons_pos _ (by simp [hp']), find?_cons_pos _ (by simp [hp'])]
      · rw [find?_cons_neg _ (by simp [hp']), find?_cons_neg _ (by simp [hp']), ih]

theorem find?_eraseP_ne {β : Type} (m : JsMap β) (k k' : String)
    (h : k' ≠ k) :
    (m.eraseP (fun p => p.1 == k)).find? (fun p => p.1 == k')
      = m.find? (fun p => p.1 == k') := by
  induction m with
  | nil => rfl
  | cons p m ih =>
    by_cases hp : p.1 = k
    · rw [eraseP_cons_pos _ (by simp [hp]), find?_cons_neg _ (by simp [hp, Ne.symm h])]
    · rw [eraseP_cons_neg _ (by simp [hp])]
      by_cases hp' : p.1 = k'
      · rw [find?_cons_pos _ (by simp [hp']), find?_cons_pos _ (by simp [hp'])]
      · rw [find?_cons_neg _ (by simp [hp']), find?_cons_neg _ (by simp [hp']), ih]

theorem mapGet_mapSet_self {β : Type} (m : JsMap β) (k : String) (v : β) :
    mapGet (mapSet m k v) k = some v := by
  unfold mapGet mapSet
  by_cases hk : mapHasKey m k = true
  · rw [if_pos hk, find?_replace, if_pos hk]
    rfl
  · rw [if_neg hk, List.find?_append]
    have h1 : m.find? (fun p => p.1 == k) = none := by
      rw [List.find?_eq_none]
      intro p hp hb
      apply hk
      unfold mapHasKey
      rw [List.any_eq_true]
      exact ⟨p, hp, hb⟩
    rw [h1, Option.none_or, find?_cons_pos _ (by simp)]
    rfl

theorem mapGet_mapSet_ne {β : Type} (m : JsMap β) (k k' : String) (v : β)
    (h : k' ≠ k) : mapGet (mapSet m k v) k' = mapGet m k' := by
  unfold mapGet mapSet
  by_cases hk : mapHasKey m k = true
  · rw [if_pos hk, find?_replace_ne _ _ _ _ h]
  · rw [if_neg hk, List.find?_append]
    have h1 : List.find? (fun p => p.1 == k') [(k, v)] = none := by
      rw [find?_cons_neg _ (by simp [Ne.symm h])]
      rfl
    rw [h1, Option.or_none]

theorem mapGet_mapDelete_ne {β : Type} (m : JsMap β) (k k' : String)
    (h : k' ≠ k) : mapGet (mapDelete m k) k' = mapGet m k' := by
  unfold mapGet mapDelete
  rw [find?_eraseP_ne _ _ _ h]

theorem mapSet_length {β : Type} (m : JsMap β) (k : String) (v : β) :
    (mapSet m k v).length = if mapHasKey m k then m.length else m.length + 1 := by
  unfold mapSet
  by_cases h : mapHasKey m k = true
  · rw [if_pos h, if_pos h, List.length_map]
  · rw [if_neg h, if_neg h, List.length_append, List.length_cons, List.length_nil]

theorem mapSet_fresh {β : Type} (m : JsMap β) (k : String) (v : β)
    (h : mapHasKey m k = false) : mapSet m k v = m ++ [(k, v)] := by
  simp [mapSet, h]

/-! ### TTL semantics (claim C7) -/

/-- C7: TTL semantics of lookup.  After `setCachedResults` stores an entry at
time `t`, `getCachedResults` returns it at any time `now` with
`now - t < CACHE_DURATION` and returns the miss value `none` at any time with
`CACHE_DURATION ≤ now - t`; the lookup mutates nothing (it is a pure
function of the cache), and in particular the expired entry itself remains
stored in the map. -/
theorem ttl_lookup {α : Type} (cache : SearchCache α) (query selectedOption : String)
    (results : List α) (t now : Nat) :
    (now - t < CACHE_DURATION →
      getCachedResults (setCachedResults cache query selectedOption results t)
        query selectedOption now = some results)
    ∧ (CACHE_DURATION ≤ now - t →
      getCachedResults (setCachedResults cache query selectedOption results t)
        query selectedOption now = none)
    ∧ mapGet (setCachedResults cache query selectedOption results t)
        (cacheKey query selectedOption) = some ⟨results, t⟩ := by
  have hget : mapGet (setCachedResults cache query selectedOption results t)
      (cacheKey query selectedOption) = some ⟨results, t⟩ := by
    unfold setCachedResults
    exact mapGet_mapSet_self _ _ _
  refine ⟨?_, ?_, hget⟩
  · intro h
    unfold getCachedResults
    rw [hget]
    show (if now - t < CACHE_DURATION then some results else none) = some results
    rw [if_pos h]
  · intro h
    unfold getCachedResults
    rw [hget]
    show (if now - t < CACHE_DURATION then some results else none) = none
    rw [if_neg (by omega)]

/-- Witness for C7 at concrete inputs: a hit one millisecond before expiry and
a miss at expiry. -/
theorem ttl_lookup_witness :
    getCachedResults (setCachedResults ([] : SearchCache Unit) "cat" "Pages" [()] 0)
      "cat" "Pages" (CACHE_DURATION - 1) = some [()]
    ∧ getCachedResults (setCachedResults ([] : SearchCache Unit) "cat" "Pages" [()] 0)
      "cat" "Pages" CACHE_DURATION = none :=
  ⟨(ttl_lookup [] "cat" "Pages" [()] 0 (CACHE_DURATION - 1)).1 (by decide),
   (ttl_lookup [] "cat" "Pages" [()] 0 CACHE_DURATION).2.1 (by decide)⟩

/-! ### Cache-key derivation (claim C10) -/

theorem suffix_of_append_eq {γ : Type} (a b s t : List γ)
    (h : a ++ s = b ++ t) (hl : s.length ≤ t.length) : s <:+ t := by
  have hlen : a.length + s.length = b.length + t.length := by
    have hc := congrArg List.length h
    simpa using hc
  have ha : a.length = b.length + (t.length - s.length) := by omega
  have h2 := congrArg (List.drop a.length) h
  rw [List.drop_left] at h2
  rw [ha, List.drop_append] at h2
  rw [h2]
  exact List.drop_suffix _ _

/-- C10: cache-key derivation identifies searches exactly up to query case.
For filter options drawn from the closed set `Pages`, `Collection`, `Both`,
two `(query, option)` pairs derive the same underscore-joined key string if
and only if their lowercased queries are equal and their options are equal;
in particular `cacheKey "Cat" "Pages" = cacheKey "cat" "Pages"`, so the two
lookups resolve to the same entry, and no two distinct searches collide. -/
theorem cacheKey_exact (q1 q2 o1 o2 : String)
    (h1 : o1 ∈ ["Pages", "Collection", "Both"])
    (h2 : o2 ∈ ["Pages", "Collection", "Both"]) :
    cacheKey q1 o1 = cacheKey q2 o2 ↔ (toLowerCase q1 = toLowerCase q2 ∧ o1 = o2) := by
  constructor
  · intro h
    have hd : (toLowerCase q1).data ++ ('_' :: o1.data)
        = (toLowerCase q2).data ++ ('_' :: o2.data) := by
      have hh := congrArg String.data h
      simpa [cacheKey, String.data_append, List.append_assoc] using hh
    fin_cases h1 <;> fin_cases h2
    · exact ⟨String.ext (List.append_cancel_right hd), rfl⟩
    · exact absurd (suffix_of_append_eq _ _ _ _ hd (by decide)) (by decide)
    · exact absurd (suffix_of_append_eq _ _ _ _ hd.symm (by decide)) (by decide)
    · exact absurd (suffix_of_append_eq _ _ _ _ hd.symm (by decide)) (by decide)
    · exact ⟨String.ext (List.append_cancel_right hd), rfl⟩
    · exact absurd (suffix_of_append_eq _ _ _ _ hd.symm (by decide)) (by decide)
    · exact absurd (suffix_of_append_eq _ _ _ _ hd (by decide)) (by decide)
    · exact absurd (suffix_of_append_eq _ _ _ _ hd (by decide)) (by decide)
    · exact ⟨String.ext (List.append_cancel_right hd), rfl⟩
  · rintro ⟨ha, hb⟩
    unfold cacheKey
    rw [ha, hb]

/-- Witness for C10 at the inputs of the spec example: `lookup("Cat","Pages")`
and `lookup("cat","Pages")` derive the same cache key. -/
theorem cacheKey_exact_witness : cacheKey "Cat" "Pages" = cacheKey "cat" "Pages" :=
  (cacheKey_exact "Cat" "cat" "Pages" "Pages" (by decide) (by decide)).mpr
    ⟨by decide, rfl⟩

/-! ### Merge of sub-request outcomes (claims C8 and C9) -/

theorem handleSubRequest_failed {α : Type} (type : String)
    (s : Except String (Response α)) (hs : failedSettled s) :
    (handleSubRequest type s).success = false := by
  match s with
  | .error e => rfl
  | .ok r =>
    rcases hs with hok | hj
    · simp [handleSubRequest, hok]
    · cases hro : r.ok <;> simp [handleSubRequest, hro, hj]

theorem foldl_merge_failed {α : Type} (l : List (SubSettled α))
    (h : ∀ r ∈ l, r.success = false) :
    l.foldl
      (fun allResults r =>
        if r.success then allResults ++ r.data.map (fun item => (⟨item, r.type⟩ : TaggedItem α))
        else allResults)
      [] = [] := by
  suffices hgen : ∀ acc : List (TaggedItem α), l.foldl
      (fun allResults r =>
        if r.success then allResults ++ r.data.map (fun item => (⟨item, r.type⟩ : TaggedItem α))
        else allResults) acc = acc from hgen []
  induction l with
  | nil => intro acc; rfl
  | cons r l ih =>
    intro acc
    have hr : r.success = false := h r (List.mem_cons_self r l)
    rw [List.foldl_cons, if_neg (by rw [hr]; exact Bool.false_ne_true)]
    exact ih (fun x hx => h x (List.mem_cons_of_mem r hx)) acc

/-- C8: partial-failure merge with declared order.  With option `Both` and
both sub-requests settling (`Promise.allSettled` waits for both), two
successes merge page items (tagged `_type = "page"`) before cms items
(tagged `_type = "cms"`); and a failed cms sub-request contributes zero
items without erroring, so a page success with items `[a, b]` yields exactly
those two items tagged `page`. -/
theorem partial_merge {α : Type} (pageItems cmsItems : List α) :
    (executeParallelSearches "Both"
        (.ok ⟨true, "", .fields (some pageItems)⟩)
        (.ok ⟨true, "", .fields (some cmsItems)⟩)
      = pageItems.map (fun a => (⟨a, "page"⟩ : TaggedItem α))
        ++ cmsItems.map (fun a => (⟨a, "cms"⟩ : TaggedItem α)))
    ∧ ∀ cmsSettled : Except String (Response α), failedSettled cmsSettled →
      executeParallelSearches "Both" (.ok ⟨true, "", .fields (some pageItems)⟩) cmsSettled
        = pageItems.map (fun a => (⟨a, "page"⟩ : TaggedItem α)) := by
  constructor
  · simp [executeParallelSearches, handleSubRequest]
  · intro cmsSettled hf
    have hfail : (handleSubRequest "cms" cmsSettled).success = false :=
      handleSubRequest_failed _ _ hf
    have hpage : handleSubRequest "page"
        (.ok (⟨true, "", .fields (some pageItems)⟩ : Response α))
        = ⟨"page", pageItems, true, none⟩ := rfl
    simp [executeParallelSearches, hpage, hfail]

/-- Witness for C8 at the spec example: page succeeds with `[a, b]`, cms
fails with a network error; the merge is `[a, b]` tagged `page`. -/
theorem partial_merge_witness :
    executeParallelSearches "Both"
      (.ok ⟨true, "", .fields (some [10, 11])⟩)
      (Except.error "TypeError" : Except String (Response Nat))
      = [⟨10, "page"⟩, ⟨11, "page"⟩] :=
  (partial_merge [10, 11] []).2 (Except.error "TypeError") trivial

/-- C9: total failure never escapes as an error.  `executeParallelSearches`
always returns a list of tagged items (in the embedding it is a total
function into `List`, mirroring that the only awaited promise is
`Promise.allSettled` of mappers that catch every exception), and for every
option, when both sub-requests fail — rejection (network error, timeout,
abort), non-2xx response, or parse failure — it returns the empty list. -/
theorem total_failure_empty {α : Type} (selectedOption : String)
    (pageSettled cmsSettled : Except String (Response α))
    (hp : failedSettled pageSettled) (hc : failedSettled cmsSettled) :
    executeParallelSearches selectedOption pageSettled cmsSettled = [] := by
  unfold executeParallelSearches
  apply foldl_merge_failed
  intro r hr
  rcases List.mem_map.mp hr with ⟨tp, htp, rfl⟩
  rcases List.mem_append.mp htp with hmem | hmem
  · rcases List.mem_ite_nil_right.mp hmem with ⟨hcond, hm⟩
    rw [List.mem_singleton.mp hm]
    exact handleSubRequest_failed _ _ hp
  · rcases List.mem_ite_nil_right.mp hmem with ⟨hcond, hm⟩
    rw [List.mem_singleton.mp hm]
    exact handleSubRequest_failed _ _ hc

/-- Witness for C9: option `Both`, page rejected with a network error, cms
responding 500; the search resolves to the empty list. -/
theorem total_failure_empty_witness :
    executeParallelSearches "Both" (Except.error "TypeError")
      (.ok (⟨false, "Internal Server Error", .fields none⟩ : Response Nat)) = [] :=
  total_failure_empty "Both" (Except.error "TypeError")
    (.ok ⟨false, "Internal Server Error", .fields none⟩) trivial (Or.inl rfl)

/-! ### Retry policy (claim C2) -/

/-- C2 counterexample: the claim says a sub-request failing with a Timeout or
a non-2xx NetworkFailure is retried exactly once (two attempts).  In the
code, the 10 s timeout aborts through the per-call controller, so the fetch
rejects with an error named `AbortError` and `optimizedFetch` rethrows after
a single attempt; and a 5xx response is not an exception at all — the
response is returned after a single attempt and the sub-request is then
counted as failed without any retry. -/
theorem retry_policy_cex :
    optimizedFetch (fun _ => (.rejects "AbortError" : AttemptResult Nat)) 0 1
      = (.error "AbortError", 1)
    ∧ optimizedFetch
        (fun _ => (.resolves ⟨false, "Internal Server Error", .fields none⟩ : AttemptResult Nat)) 0 1
      = (.ok ⟨false, "Internal Server Error", .fields none⟩, 1)
    ∧ (handleSubRequest "page"
        (.ok (⟨false, "Internal Server Error", .fields none⟩ : Response Nat))).success = false :=
  ⟨rfl, rfl, rfl⟩

/-- C2 amended: with the default budget of one retry, only a fetch attempt
that rejects with an error not named `AbortError` is retried (exactly once,
after a 300 ms backoff elided here), the second attempt being final whatever
it does; an attempt rejecting with `AbortError` — which is how the 10 s
timeout manifests — is rethrown after one attempt; and any resolved
response, 2xx or not, ends the call after one attempt (a non-2xx is then
counted as a failed sub-request without retry, see the counterexample). -/
theorem retry_policy_amended {α : Type} (attempt : Nat → AttemptResult α) :
    (∀ errName, attempt 0 = .rejects errName → errName ≠ "AbortError" →
      optimizedFetch attempt 0 1
        = (match attempt 1 with
           | .resolves r => (Except.ok r, 2)
           | .rejects m => (Except.error m, 2)))
    ∧ (∀ r, attempt 0 = .resolves r → optimizedFetch attempt 0 1 = (.ok r, 1))
    ∧ (attempt 0 = .rejects "AbortError" →
      optimizedFetch attempt 0 1 = (.error "AbortError", 1)) := by
  refine ⟨?_, ?_, ?_⟩
  · intro errName h0 hn
    rw [optimizedFetch, h0]
    simp only [if_pos hn]
    rw [optimizedFetch]
  · intro r h0
    rw [optimizedFetch, h0]
  · intro h0
    rw [optimizedFetch, h0]
    simp

/-- The attempt stream of the C2 amended witness: the first wire attempt
rejects with a network `TypeError`, the retry succeeds. -/
def retryWitnessAttempts : Nat → AttemptResult Nat := fun n =>
  if n = 0 then .rejects "TypeError" else .resolves ⟨true, "", .fields (some [5])⟩

/-- Witness for C2 amended: the network failure is retried exactly once and
the response of the retry is returned (two attempts in total). -/
theorem retry_policy_amended_witness :
    optimizedFetch retryWitnessAttempts 0 1 = (.ok ⟨true, "", .fields (some [5])⟩, 2) :=
  (retry_policy_amended retryWitnessAttempts).1 "TypeError" rfl (by decide)

/-! ### Cancellation of superseded searches (claim C1)

`executeParallelSearches` aborts the previous `currentSearchController` and
passes the signal of the new controller in the options of each `optimizedFetch`
call.  But `optimizedFetch` builds the real `fetch` init as
`{ ...options, signal: controller.signal, ... }` with its own per-call
timeout controller, so the field written after the spread replaces the
shared search signal: the issued request listens only to the timeout
controller.  Aborting the shared controller therefore cancels nothing, and
nothing checks the cancellation signal before the settled outcomes are
merged and written to the cache. -/

/-- C1 (bug evidence): with the shared controller `0` of the superseded search
aborted and the timeout controller `1` fresh, the init actually handed to
`fetch` carries signal `1` — not the shared signal — so the sub-request is
not aborted; its late response then flows through `performSearchFast`
unchecked and is merged and written to the cache under the key of the
superseded query. -/
theorem cancellation_signal_lost :
    (optimizedFetchInit (searchSubRequestOptions "tok" 0) 1).signal = some 1
    ∧ signalAborted [0] (optimizedFetchInit (searchSubRequestOptions "tok" 0) 1).signal = false
    ∧ (performSearchFast ([] : SearchCache (TaggedItem Nat)) "q1" "Pages"
        (.ok ⟨true, "", .fields (some [7])⟩) (.error "TypeError") 0).1
        = [(cacheKey "q1" "Pages", ⟨[⟨7, "page"⟩], 0⟩)] :=
  ⟨rfl, rfl, rfl⟩

/-! ### Caching of empty results (claim C3) -/

/-- C3 counterexample: a completed search (cache miss, both sub-requests
failing, merged sequence empty) renders the no-results message and returns
with the cache unchanged — the empty merged sequence is **not** stored by
`performSearchFast`, contradicting the claim that every completing search
stores its merged sequence. -/
theorem empty_not_cached_cex :
    performSearchFast ([] : SearchCache (TaggedItem Nat)) "q" "Pages"
      (.error "TypeError") (.error "TypeError") 0 = ([], .noResults)
    ∧ mapGet (performSearchFast ([] : SearchCache (TaggedItem Nat)) "q" "Pages"
        (.error "TypeError") (.error "TypeError") 0).1 (cacheKey "q" "Pages") = none :=
  ⟨rfl, rfl⟩

/-- C3 amended: on a miss, `performSearchFast` stores the merged sequence
under the `(query, option)` key before rendering it only when it is
non-empty; an empty merged sequence is rendered as no-results and not
stored.  `preloadSearchData`, by contrast, always stores the merged
sequence — including the empty one, which an immediate lookup then
returns. -/
theorem empty_result_caching_amended {α : Type} (cache : SearchCache (TaggedItem α))
    (query selectedOption : String)
    (pageSettled cmsSettled : Except String (Response α)) (now : Nat) :
    (getCachedResults cache query selectedOption now = none →
      executeParallelSearches selectedOption pageSettled cmsSettled ≠ [] →
      performSearchFast cache query selectedOption pageSettled cmsSettled now
        = (setCachedResults cache query selectedOption
            (executeParallelSearches selectedOption pageSettled cmsSettled) now,
           .rendered (executeParallelSearches selectedOption pageSettled cmsSettled)))
    ∧ (getCachedResults cache query selectedOption now = none →
      executeParallelSearches selectedOption pageSettled cmsSettled = [] →
      performSearchFast cache query selectedOption pageSettled cmsSettled now
        = (cache, .noResults))
    ∧ getCachedResults (preloadSearchData cache query selectedOption pageSettled cmsSettled now)
        query selectedOption now
        = some (executeParallelSearches selectedOption pageSettled cmsSettled) := by
  refine ⟨?_, ?_, ?_⟩
  · intro hmiss hne
    unfold performSearchFast
    rw [hmiss]
    rw [if_neg (fun hl => hne (List.length_eq_zero.mp hl))]
  · intro hmiss hempty
    unfold performSearchFast
    rw [hmiss]
    rw [if_pos (by rw [hempty]; rfl)]
  · unfold preloadSearchData
    have hget : mapGet
        (setCachedResults cache query selectedOption
          (executeParallelSearches selectedOption pageSettled cmsSettled) now)
        (cacheKey query selectedOption)
        = some ⟨executeParallelSearches selectedOption pageSettled cmsSettled, now⟩ := by
      unfold setCachedResults
      exact mapGet_mapSet_self _ _ _
    unfold getCachedResults
    rw [hget]
    show (if now - now < CACHE_DURATION
      then some (executeParallelSearches selectedOption pageSettled cmsSettled) else none) = _
    rw [if_pos (by simp [CACHE_DURATION])]

/-- Witness for C3 amended at concrete inputs: a non-empty merge is stored
and rendered by `performSearchFast`, while `preloadSearchData` caches even an
empty merge, which the next lookup returns as an empty hit. -/
theorem empty_result_caching_amended_witness :
    performSearchFast ([] : SearchCache (TaggedItem Nat)) "q" "Pages"
        (.ok ⟨true, "", .fields (some [3])⟩) (.error "TypeError") 0
      = (setCachedResults [] "q" "Pages" [⟨3, "page"⟩] 0, .rendered [⟨3, "page"⟩])
    ∧ getCachedResults (preloadSearchData ([] : SearchCache (TaggedItem Nat)) "q" "Pages"
        (.error "TypeError") (.error "TypeError") 0) "q" "Pages" 0 = some [] :=
  ⟨(empty_result_caching_amended [] "q" "Pages"
      (.ok ⟨true, "", .fields (some [3])⟩) (.error "TypeError") 0).1 rfl (by decide),
   (empty_result_caching_amended [] "q" "Pages"
      (.error "TypeError") (.error "TypeError") 0).2.2⟩

/-! ### Capacity invariant (claim C4) -/

theorem setCachedResults_eq {α : Type} (cache : SearchCache α)
    (query selectedOption : String) (results : List α) (now : Nat) :
    setCachedResults cache query selectedOption results now
      = mapSet
          (if MAX_CACHE_SIZE ≤ mapSize cache then
            match mapFirstKey cache with
            | some firstKey => mapDelete cache firstKey
            | none => cache
          else cache)
          (cacheKey query selectedOption) ⟨results, now⟩ := rfl

theorem setCachedResults_under_capacity {α : Type} (cache : SearchCache α)
    (query selectedOption : String) (results : List α) (now : Nat)
    (hc : ¬ MAX_CACHE_SIZE ≤ mapSize cache) :
    setCachedResults cache query selectedOption results now
      = mapSet cache (cacheKey query selectedOption) ⟨results, now⟩ := by
  rw [setCachedResults_eq, if_neg hc]

theorem setCachedResults_at_capacity {α : Type} (p : String × CacheEntry α)
    (rest : SearchCache α) (query selectedOption : String) (results : List α) (now : Nat)
    (hc : MAX_CACHE_SIZE ≤ mapSize (p :: rest)) :
    setCachedResults (p :: rest) query selectedOption results now
      = mapSet (mapDelete (p :: rest) p.1) (cacheKey query selectedOption) ⟨results, now⟩ := by
  rw [setCachedResults_eq, if_pos hc]
  rfl

theorem setCachedResults_size_le {α : Type} (cache : SearchCache α)
    (query selectedOption : String) (results : List α) (now : Nat)
    (h : mapSize cache ≤ MAX_CACHE_SIZE) :
    mapSize (setCachedResults cache query selectedOption results now) ≤ MAX_CACHE_SIZE := by
  by_cases hc : MAX_CACHE_SIZE ≤ mapSize cache
  · have hne : cache ≠ [] := by
      intro he
      rw [he] at hc
      simp [mapSize, MAX_CACHE_SIZE] at hc
    obtain ⟨p, rest, rfl⟩ := List.exists_cons_of_ne_nil hne
    rw [setCachedResults_at_capacity _ _ _ _ _ _ hc]
    have hdel : mapDelete (p :: rest) p.1 = rest := eraseP_cons_pos _ (by simp)
    rw [hdel]
    have hlen : rest.length + 1 ≤ MAX_CACHE_SIZE := by
      simpa [mapSize] using h
    unfold mapSize
    rw [mapSet_length]
    split
    · omega
    · omega
  · rw [setCachedResults_under_capacity _ _ _ _ _ hc]
    unfold mapSize at *
    rw [mapSet_length]
    split
    · omega
    · omega

/-- C4: capacity invariant.  For every sequence of `setCachedResults` calls
starting from the empty cache, the number of entries is at most
`MAX_CACHE_SIZE` (200) after each call — quantifying over all call
sequences covers every intermediate state, since each prefix of a sequence
is itself a sequence. -/
theorem cache_capacity_invariant {α : Type}
    (calls : List (String × String × List α × Nat)) :
    mapSize
      (calls.foldl
        (fun c op => setCachedResults c op.1 op.2.1 op.2.2.1 op.2.2.2)
        ([] : SearchCache α)) ≤ MAX_CACHE_SIZE := by
  suffices hgen : ∀ c : SearchCache α, mapSize c ≤ MAX_CACHE_SIZE →
      mapSize (calls.foldl
        (fun c op => setCachedResults c op.1 op.2.1 op.2.2.1 op.2.2.2) c) ≤ MAX_CACHE_SIZE by
    exact hgen [] (by simp [mapSize, MAX_CACHE_SIZE])
  induction calls with
  | nil => intro c h; exact h
  | cons op calls ih =>
    intro c h
    rw [List.foldl_cons]
    exact ih _ (setCachedResults_size_le _ _ _ _ _ h)

/-! ### FIFO eviction (claim C5) -/

theorem foldl_store_fresh {α : Type} (opt : String) (res : List α) (t : Nat)
    (qs : List String) :
    ∀ c : SearchCache α,
    mapSize c + qs.length ≤ MAX_CACHE_SIZE →
    (qs.map (fun q => cacheKey q opt)).Nodup →
    (∀ q ∈ qs, mapHasKey c (cacheKey q opt) = false) →
    qs.foldl (fun m q => setCachedResults m q opt res t) c
      = c ++ qs.map (fun q => (cacheKey q opt, (⟨res, t⟩ : CacheEntry α))) := by
  induction qs with
  | nil => intro c _ _ _; simp
  | cons q qs ih =>
    intro c hlen hnodup hfresh
    have hc : ¬ MAX_CACHE_SIZE ≤ mapSize c := by
      simp only [List.length_cons] at hlen
      omega
    have hnc := hnodup
    rw [List.map_cons] at hnc
    have hnod := List.nodup_cons.mp hnc
    have hlen2 : mapSize (c ++ [(cacheKey q opt, (⟨res, t⟩ : CacheEntry α))]) + qs.length
        ≤ MAX_CACHE_SIZE := by
      simp only [mapSize, List.length_append, List.length_cons, List.length_nil] at hlen ⊢
      omega
    have hfresh2 : ∀ q' ∈ qs,
        mapHasKey (c ++ [(cacheKey q opt, (⟨res, t⟩ : CacheEntry α))]) (cacheKey q' opt)
          = false := by
      intro q' hq'
      have h1 : mapHasKey c (cacheKey q' opt) = false := hfresh q' (List.mem_cons_of_mem q hq')
      have h2 : cacheKey q opt ≠ cacheKey q' opt := by
        intro he
        exact hnod.1 (he ▸ List.mem_map_of_mem _ hq')
      unfold mapHasKey at h1 ⊢
      rw [List.any_append, h1]
      simp [h2]
    rw [List.foldl_cons, setCachedResults_under_capacity _ _ _ _ _ hc,
        mapSet_fresh _ _ _ (hfresh q (List.mem_cons_self q qs)),
        ih (c ++ [(cacheKey q opt, (⟨res, t⟩ : CacheEntry α))]) hlen2 hnod.2 hfresh2]
    simp

/-- C5: FIFO eviction.  Starting from an empty cache, after storing
`MAX_CACHE_SIZE + 1` entries under pairwise distinct derived keys in order
`q1 :: rest`, the first-stored key is absent from the cache and every key of
`rest` is present. -/
theorem fifo_eviction {α : Type} (q1 : String) (rest : List String) (opt : String)
    (res : List α) (t : Nat)
    (hlen : (q1 :: rest).length = MAX_CACHE_SIZE + 1)
    (hnodup : ((q1 :: rest).map (fun q => cacheKey q opt)).Nodup) :
    mapGet ((q1 :: rest).foldl (fun m q => setCachedResults m q opt res t) [])
      (cacheKey q1 opt) = none
    ∧ ∀ q ∈ rest,
      (mapGet ((q1 :: rest).foldl (fun m q => setCachedResults m q opt res t) [])
        (cacheKey q opt)).isSome = true := by
  rcases List.eq_nil_or_concat rest with rfl | ⟨front, qlast, rfl⟩
  · simp [MAX_CACHE_SIZE] at hlen
  simp only [List.concat_eq_append] at hlen hnodup ⊢
  have hnodup' : (((q1 :: front) ++ [qlast]).map (fun q => cacheKey q opt)).Nodup := hnodup
  rw [List.map_append] at hnodup'
  have hfold1 : (q1 :: front).foldl (fun m q => setCachedResults m q opt res t) []
      = (q1 :: front).map (fun q => (cacheKey q opt, (⟨res, t⟩ : CacheEntry α))) := by
    have h := foldl_store_fresh opt res t (q1 :: front) []
      (by
        simp only [mapSize, List.length_nil, List.length_cons, List.length_append] at hlen ⊢
        omega)
      (List.Nodup.of_append_left hnodup')
      (fun q _ => rfl)
    simpa using h
  have hsz : MAX_CACHE_SIZE
      ≤ mapSize ((cacheKey q1 opt, (⟨res, t⟩ : CacheEntry α)) ::
          front.map (fun q => (cacheKey q opt, (⟨res, t⟩ : CacheEntry α)))) := by
    simp only [mapSize, List.length_cons, List.length_map]
    simp only [List.length_cons, List.length_append, List.length_nil] at hlen
    omega
  have hlast : cacheKey qlast opt ∉ ((q1 :: front).map (fun q => cacheKey q opt)) := by
    have hd := List.disjoint_of_nodup_append hnodup'
    intro hmem
    exact hd hmem (by simp)
  have hhk : mapHasKey
      (front.map (fun q => (cacheKey q opt, (⟨res, t⟩ : CacheEntry α))))
      (cacheKey qlast opt) = false := by
    unfold mapHasKey
    rw [List.any_eq_false]
    intro x hx
    rcases List.mem_map.mp hx with ⟨q, hq, rfl⟩
    simp only [beq_iff_eq]
    intro he
    exact hlast (he ▸ List.mem_map_of_mem _ (List.mem_cons_of_mem q1 hq))
  have hfold : (q1 :: (front ++ [qlast])).foldl (fun m q => setCachedResults m q opt res t) []
      = (front ++ [qlast]).map (fun q => (cacheKey q opt, (⟨res, t⟩ : CacheEntry α))) := by
    have hsplit : (q1 :: (front ++ [qlast])) = (q1 :: front) ++ [qlast] := rfl
    rw [hsplit, List.foldl_append, hfold1, List.foldl_cons, List.foldl_nil, List.map_cons,
        setCachedResults_at_capacity _ _ _ _ _ _ hsz]
    have hdel : mapDelete
        ((cacheKey q1 opt, (⟨res, t⟩ : CacheEntry α)) ::
          front.map (fun q => (cacheKey q opt, (⟨res, t⟩ : CacheEntry α))))
        (cacheKey q1 opt)
        = front.map (fun q => (cacheKey q opt, (⟨res, t⟩ : CacheEntry α))) :=
      eraseP_cons_pos _ (by simp)
    rw [hdel, mapSet_fresh _ _ _ hhk, List.map_append]
    rfl
  have hnc := hnodup
  rw [List.map_cons] at hnc
  have hn1 := (List.nodup_cons.mp hnc).1
  constructor
  · rw [hfold]
    unfold mapGet
    have hnone : List.find? (fun p => p.1 == cacheKey q1 opt)
        ((front ++ [qlast]).map (fun q => (cacheKey q opt, (⟨res, t⟩ : CacheEntry α))))
        = none := by
      rw [List.find?_eq_none]
      intro p hp
      rcases List.mem_map.mp hp with ⟨q, hq, rfl⟩
      simp only [beq_iff_eq]
      intro he
      exact hn1 (he ▸ List.mem_map_of_mem _ hq)
    rw [hnone]
    rfl
  · intro q hq
    rw [hfold]
    unfold mapGet
    rw [Option.isSome_map']
    rw [List.find?_isSome]
    exact ⟨(cacheKey q opt, ⟨res, t⟩), List.mem_map_of_mem _ hq, by simp⟩

/-- Query `i` of the FIFO witness: a string of `i` letters `a`.  The 201
derived keys have pairwise distinct lengths, hence are pairwise distinct. -/
def fifoWitnessQuery (i : Nat) : String := ⟨List.replicate i 'a'⟩

theorem cacheKey_fifoWitnessQuery_length (i : Nat) :
    (cacheKey (fifoWitnessQuery i) "Pages").length = i + 6 := by
  show ((toLowerCase (fifoWitnessQuery i) ++ "_") ++ "Pages").length = i + 6
  rw [String.length_append, String.length_append]
  show (List.map Char.toLower (List.replicate i 'a')).length + "_".length + "Pages".length = i + 6
  rw [List.length_map, List.length_replicate]
  have h1 : "_".length = 1 := rfl
  have h2 : "Pages".length = 5 := rfl
  rw [h1, h2]

theorem cacheKey_fifoWitnessQuery_injective :
    Function.Injective (fun i => cacheKey (fifoWitnessQuery i) "Pages") := by
  intro i j hij
  have hl := congrArg String.length hij
  simp only [cacheKey_fifoWitnessQuery_length] at hl
  omega

theorem fifoWitnessKeys_nodup :
    ((fifoWitnessQuery 0 :: (List.range 200).map (fun i => fifoWitnessQuery (i + 1))).map
      (fun q => cacheKey q "Pages")).Nodup := by
  have heq : (fifoWitnessQuery 0 :: (List.range 200).map (fun i => fifoWitnessQuery (i + 1))).map
      (fun q => cacheKey q "Pages")
      = (List.range 201).map (fun i => cacheKey (fifoWitnessQuery i) "Pages") := by
    conv_rhs => rw [List.range_succ_eq_map, List.map_cons, List.map_map]
    rw [List.map_cons, List.map_map]
    rfl
  rw [heq]
  exact (List.nodup_range 201).map cacheKey_fifoWitnessQuery_injective

/-- Witness for C5 at a concrete family of 201 queries with pairwise
distinct derived keys: after the 201 stores the first-stored key is gone. -/
theorem fifo_eviction_witness :
    mapGet ((fifoWitnessQuery 0 :: (List.range 200).map (fun i => fifoWitnessQuery (i + 1))).foldl
        (fun m q => setCachedResults m q "Pages" ([] : List Unit) 0) [])
      (cacheKey (fifoWitnessQuery 0) "Pages") = none :=
  (fifo_eviction (fifoWitnessQuery 0)
    ((List.range 200).map (fun i => fifoWitnessQuery (i + 1))) "Pages" [] 0
    (by simp [MAX_CACHE_SIZE]) fifoWitnessKeys_nodup).1

/-! ### Eviction frame condition (claim C6) -/

set_option maxRecDepth 4000

/-- The at-capacity cache of the C6 counterexample: 200 entries under the
pairwise distinct derived keys of `fifoWitnessQuery 0 .. 199`; exactly the
state reached by storing those 200 queries in order into the empty cache
(`frameCexCache_reachable`). -/
def frameCexCache : SearchCache Unit :=
  (List.range 200).map (fun i => (cacheKey (fifoWitnessQuery i) "Pages", ⟨[], 0⟩))

theorem frameCexCache_reachable :
    frameCexCache = ((List.range 200).map fifoWitnessQuery).foldl
      (fun m q => setCachedResults m q "Pages" ([] : List Unit) 0) [] := by
  rw [foldl_store_fresh "Pages" [] 0 ((List.range 200).map fifoWitnessQuery) []
    (by simp [mapSize, MAX_CACHE_SIZE])
    (by
      rw [List.map_map]
      exact (List.nodup_range 200).map cacheKey_fifoWitnessQuery_injective)
    (fun q _ => rfl)]
  simp [frameCexCache, List.map_map]

/-- C6 counterexample: the cache holds `MAX_CACHE_SIZE` entries and the key of
query `"a"` (namely `cacheKey "a" "Pages"`, the second-oldest entry) is
already present, so by the claim a store under that key must leave every
other entry unchanged; but `setCachedResults` evicts whenever
`size >= MAX_CACHE_SIZE`, even though this store replaces an existing key
and adds no entry — the oldest entry (key of query `""`) disappears. -/
theorem store_frame_cex :
    mapSize frameCexCache = MAX_CACHE_SIZE
    ∧ mapHasKey frameCexCache (cacheKey "a" "Pages") = true
    ∧ (mapGet frameCexCache (cacheKey "" "Pages")).isSome = true
    ∧ mapGet (setCachedResults frameCexCache "a" "Pages" [] 5) (cacheKey "" "Pages") = none :=
  ⟨rfl, rfl, rfl, rfl⟩

/-- C6 amended: a store call removes at most one existing entry, and when the
cache is **below** capacity a store (in particular one whose key is already
present) leaves every entry under a different key unchanged; but the
eviction of the oldest entry is triggered whenever the cache already holds
at least `MAX_CACHE_SIZE` entries at the time of the store — not only when
inserting would push it over capacity — so at capacity a store on a present
key additionally removes the oldest-inserted entry (see the counterexample).
Entries under keys other than the stored key and the evicted first key are
always unchanged. -/
theorem store_frame_amended {α : Type} (cache : SearchCache α)
    (query selectedOption : String) (results : List α) (t : Nat) :
    (mapSize cache < MAX_CACHE_SIZE →
      ∀ k, k ≠ cacheKey query selectedOption →
        mapGet (setCachedResults cache query selectedOption results t) k = mapGet cache k)
    ∧ (∀ k, k ≠ cacheKey query selectedOption →
        (∀ fk, mapFirstKey cache = some fk → k ≠ fk) →
        mapGet (setCachedResults cache query selectedOption results t) k = mapGet cache k)
    ∧ mapSize cache ≤ mapSize (setCachedResults cache query selectedOption results t) + 1 := by
  refine ⟨?_, ?_, ?_⟩
  · intro hlt k hk
    rw [setCachedResults_under_capacity _ _ _ _ _ (by omega)]
    exact mapGet_mapSet_ne _ _ _ _ hk
  · intro k hk hfk
    by_cases hc : MAX_CACHE_SIZE ≤ mapSize cache
    · have hne : cache ≠ [] := by
        intro he
        rw [he] at hc
        simp [mapSize, MAX_CACHE_SIZE] at hc
      obtain ⟨p, rest, rfl⟩ := List.exists_cons_of_ne_nil hne
      rw [setCachedResults_at_capacity _ _ _ _ _ _ hc,
        mapGet_mapSet_ne _ _ _ _ hk]
      exact mapGet_mapDelete_ne _ _ _ (hfk p.1 rfl)
    · rw [setCachedResults_under_capacity _ _ _ _ _ hc]
      exact mapGet_mapSet_ne _ _ _ _ hk
  · by_cases hc : MAX_CACHE_SIZE ≤ mapSize cache
    · have hne : cache ≠ [] := by
        intro he
        rw [he] at hc
        simp [mapSize, MAX_CACHE_SIZE] at hc
      obtain ⟨p, rest, rfl⟩ := List.exists_cons_of_ne_nil hne
      rw [setCachedResults_at_capacity _ _ _ _ _ _ hc]
      have hdel : mapDelete (p :: rest) p.1 = rest := eraseP_cons_pos _ (by simp)
      rw [hdel]
      unfold mapSize
      rw [mapSet_length]
      split <;> (simp only [List.length_cons]; omega)
    · rw [setCachedResults_under_capacity _ _ _ _ _ hc]
      unfold mapSize
      rw [mapSet_length]
      split <;> omega

/-- Witness for C6 amended: below capacity, a store leaves the entry under a
different key untouched, and a store never shrinks the cache by more than
one. -/
theorem store_frame_amended_witness :
    mapGet (setCachedResults [(cacheKey "x" "Pages", (⟨[], 0⟩ : CacheEntry Unit))]
        "b" "Pages" [] 1) (cacheKey "x" "Pages")
      = mapGet [(cacheKey "x" "Pages", (⟨[], 0⟩ : CacheEntry Unit))] (cacheKey "x" "Pages")
    ∧ mapSize [(cacheKey "x" "Pages", (⟨[], 0⟩ : CacheEntry Unit))]
      ≤ mapSize (setCachedResults [(cacheKey "x" "Pages", (⟨[], 0⟩ : CacheEntry Unit))]
          "b" "Pages" [] 1) + 1 :=
  ⟨(store_frame_amended [(cacheKey "x" "Pages", (⟨[], 0⟩ : CacheEntry Unit))]
      "b" "Pages" [] 1).1 (by decide) (cacheKey "x" "Pages") (by decide),
   (store_frame_amended [(cacheKey "x" "Pages", (⟨[], 0⟩ : CacheEntry Unit))]
      "b" "Pages" [] 1).2.2⟩

end UltraFast
